import Mathlib

/-!
# Activity panel: shallow embedding

Embedding of `src/crates/frontend/src/workspace/activity_panel/mod.rs`.

The panel owns an ordered collection of activities (`MutableVec<Rc<Activity>>`)
and an optional active activity (`Mutable<Option<Rc<Activity>>>`).  An activity
is either an editor bound to a file (`Activity::Editor(Rc<editor::Editor>)`,
whose `file` field is an `Rc` compared with `Rc::ptr_eq`) or the welcome view.

Reference identity (`Rc::ptr_eq`) is modelled by tagging every allocation with
a `Nat` identifier minted at creation time: two handles denote the same
allocation iff the full records are equal.  File handles are likewise modelled
as `Nat` identifiers compared by equality.
-/

namespace ActivityPanel

/-- The payload of an activity: an editor holding a file handle
(`Activity::Editor`, whose editor holds `file: Rc<File>`), or the welcome view
(`Activity::Welcome`). -/
inductive ActivityKind where
  | editor (file : Nat)
  | welcome
  deriving DecidableEq, Repr

/-- One `Rc<Activity>` allocation: the identifier models the allocation address
(fresh at creation), so `Rc::ptr_eq` between two handles is equality of the
records. -/
structure Activity where
  id : Nat
  kind : ActivityKind
  deriving DecidableEq, Repr

/-- The mutable pair owned by `ActivityPanel`: `activities: MutableVec<Rc<Activity>>`
and `active_activity: Mutable<Option<Rc<Activity>>>`. -/
structure PanelState where
  activities : List Activity
  active_activity : Option Activity
  deriving DecidableEq, Repr

/-- The dedup predicate of the `OpenFile` handler:
`match &***activity { Activity::Editor(editor) => Rc::ptr_eq(&editor.file, &file), _ => false }`. -/
def isEditorFor (file : Nat) (a : Activity) : Bool :=
  match a.kind with
  | .editor f => f = file
  | .welcome => false

/-- The lookup in the `OpenFile` handler: `activities.iter().find(...)`. -/
def findEditorFor (file : Nat) (acts : List Activity) : Option Activity :=
  acts.find? (isEditorFor file)

/-- The `WorkspaceCommand::OpenFile(file)` handler (mod.rs lines 142-156):
find an existing editor whose file is `Rc::ptr_eq` to `file`; otherwise
allocate a new editor activity (`fresh` models the new allocation's address)
and `push_cloned` it; finally set `active_activity` to the chosen editor. -/
def openFile (file fresh : Nat) (s : PanelState) : PanelState :=
  match findEditorFor file s.activities with
  | some e => { s with active_activity := some e }
  | none =>
      let e : Activity := ⟨fresh, .editor file⟩
      { activities := s.activities ++ [e], active_activity := some e }

/-- The tab `PointerDown` select handler (mod.rs lines 71-73):
`panel.active_activity.set(Some(this.clone()))` — an unconditional set with no
membership check. -/
def selectActivity (x : Activity) (s : PanelState) : PanelState :=
  { s with active_activity := some x }

/-- The close-icon `PointerDown` handler (mod.rs lines 89-96):
`activities.retain(|activity| !Rc::ptr_eq(activity, &this))`, then if the old
`active_activity` is `Rc::ptr_eq` to the closed activity, re-point it at
`activities.first().cloned()`. -/
def closeActivity (x : Activity) (s : PanelState) : PanelState :=
  let acts := s.activities.filter (fun a => a ≠ x)
  { activities := acts
    active_activity :=
      match s.active_activity with
      | some a => if a = x then acts.head? else s.active_activity
      | none => none }

/-- The seeded welcome activity of `ActivityPanel::default` (identifier 0 is
the mint for the construction-time allocation). -/
def welcomeActivity : Activity := ⟨0, .welcome⟩

/-- `ActivityPanel::default` (mod.rs lines 113-123): one welcome activity,
initially active. -/
def initialPanel : PanelState :=
  { activities := [welcomeActivity], active_activity := some welcomeActivity }

/-- The allocation identifiers currently present in the panel; a freshly
allocated activity has an identifier outside this list. -/
def idsOf (s : PanelState) : List Nat := s.activities.map Activity.id

/-- One externally triggered mutation of the panel, as the code wires them:
an `OpenFile` command from the workspace command stream (with a fresh
allocation for the new-editor path), a tab click (the select handler is
attached to a rendered tab, hence to a current member), or a close-icon click
on any activity handle. -/
inductive Step : PanelState → PanelState → Prop where
  | openFile (file fresh : Nat) (s : PanelState) (hfresh : fresh ∉ idsOf s) :
      Step s (openFile file fresh s)
  | select (x : Activity) (s : PanelState) (hmem : x ∈ s.activities) :
      Step s (selectActivity x s)
  | close (x : Activity) (s : PanelState) :
      Step s (closeActivity x s)

/-- States reachable from the default-constructed panel. -/
inductive Reachable : PanelState → Prop where
  | init : Reachable initialPanel
  | step {s t : PanelState} : Reachable s → Step s t → Reachable t

/-- The mutations as the rendered UI actually exposes them: same as `Step`,
except the close affordance exists only on Editor tabs
(`apply_if (matches!(**this, Activity::Editor(_)))`, mod.rs line 81), so a
close click targets a rendered — hence member — editor activity. -/
inductive UIStep : PanelState → PanelState → Prop where
  | openFile (file fresh : Nat) (s : PanelState) (hfresh : fresh ∉ idsOf s) :
      UIStep s (openFile file fresh s)
  | select (x : Activity) (s : PanelState) (hmem : x ∈ s.activities) :
      UIStep s (selectActivity x s)
  | close (x : Activity) (s : PanelState) (hmem : x ∈ s.activities)
      (hed : ∃ f, x.kind = .editor f) :
      UIStep s (closeActivity x s)

/-- States reachable from the default-constructed panel through UI-exposed
mutations only. -/
inductive UIReachable : PanelState → Prop where
  | init : UIReachable initialPanel
  | step {s t : PanelState} : UIReachable s → UIStep s t → UIReachable t

/-- `ContextMenuState` (external collaborator): a visibility flag and a screen
position, both owned by the panel. -/
structure ContextMenuState where
  show_menu : Bool
  menu_position : Int × Int
  deriving DecidableEq, Repr

/-- Panel plus its context-menu collaborator. -/
structure UIState where
  panel : PanelState
  menu : ContextMenuState
  deriving DecidableEq, Repr

/-- The tab `ContextMenu` event handler (mod.rs lines 168-172):
`show_menu.set(true); menu_position.set((event.x(), event.y()))`; the panel
pair is untouched. -/
def tabSecondaryClick (x y : Int) (s : UIState) : UIState :=
  { s with menu := { show_menu := true, menu_position := (x, y) } }

/-- Any context-menu option's `MouseDown` handler (mod.rs lines 188-221): a
console log plus `show_menu.set_neq(false)`; position and panel pair are
untouched. -/
def contextMenuOptionClick (s : UIState) : UIState :=
  { s with menu := { s.menu with show_menu := false } }

/-- `const TAB_HEIGHT: u32 = 48` (mod.rs line 12). -/
def TAB_HEIGHT : Nat := 48

/-- `u32::saturating_sub` on values below `2^32`. -/
def saturatingSub (a b : Nat) : Nat := if b ≤ a then a - b else 0

/-- The height handed to the active activity's content
(mod.rs line 238): `height.saturating_sub(TAB_HEIGHT)`. -/
def contentHeight (h : Nat) : Nat := saturatingSub h TAB_HEIGHT

/-- Number of editor activities bound to `file` in the collection. -/
def editorCount (file : Nat) (acts : List Activity) : Nat :=
  (acts.filter (isEditorFor file)).length

/-- Processing a sequence of `OpenFile` commands in arrival order; each pair is
`(file, fresh allocation identifier)`. -/
def openFiles (ps : List (Nat × Nat)) (s : PanelState) : PanelState :=
  ps.foldl (fun st p => openFile p.1 p.2 st) s

example : openFile 5 1 initialPanel =
    { activities := [welcomeActivity, ⟨1, .editor 5⟩],
      active_activity := some ⟨1, .editor 5⟩ } := by decide

example : openFile 5 2 (openFile 5 1 initialPanel) = openFile 5 1 initialPanel := by decide

example : closeActivity ⟨1, .editor 5⟩ (openFile 5 1 initialPanel) = initialPanel := by decide

/-- C1: in every state reachable from the initial panel state via `OpenFile`,
tab-click selection, and close operations, an active activity is
reference-identical to some element of the activities collection. -/
theorem reachable_active_mem (s : PanelState) (h : Reachable s) :
    ∀ a, s.active_activity = some a → a ∈ s.activities := by
  induction h with
  | init =>
      intro a ha
      rw [show initialPanel.active_activity = some welcomeActivity from rfl] at ha
      cases ha
      exact List.mem_singleton.mpr rfl
  | @step u t _ hst ih =>
      cases hst with
      | openFile file fresh _ hfresh =>
          intro a ha
          cases hfind : findEditorFor file u.activities with
          | some e =>
              simp only [openFile, hfind] at ha ⊢
              cases ha
              exact List.mem_of_find?_eq_some hfind
          | none =>
              simp only [openFile, hfind] at ha ⊢
              cases ha
              exact List.mem_append_right _ (List.mem_singleton.mpr rfl)
      | select x _ hmem =>
          intro a ha
          simp only [selectActivity] at ha ⊢
          cases ha
          exact hmem
      | close x _ =>
          intro a ha
          cases hact : u.active_activity with
          | none =>
              simp only [closeActivity, hact] at ha
              exact Option.noConfusion ha
          | some b =>
              simp only [closeActivity, hact] at ha ⊢
              by_cases hbx : b = x
              · rw [if_pos hbx] at ha
                exact List.mem_of_mem_head? ha
              · rw [if_neg hbx] at ha
                cases ha
                exact List.mem_filter.mpr ⟨ih a hact, by simpa using hbx⟩

/-- Witness for C1 at the initial state. -/
theorem reachable_active_mem_witness :
    Reachable initialPanel ∧ welcomeActivity ∈ initialPanel.activities :=
  ⟨Reachable.init, reachable_active_mem initialPanel Reachable.init welcomeActivity rfl⟩

/-- C2: `OpenFile(file)` either finds an existing editor activity whose file
reference is identical to `file` and makes it active, leaving the collection
untouched, or — when no editor for `file` exists — appends exactly one new
editor activity for `file` at the end and makes it active. -/
theorem openFile_spec (file fresh : Nat) (s : PanelState) :
    (∃ e, findEditorFor file s.activities = some e ∧ e ∈ s.activities ∧
        isEditorFor file e = true ∧
        (openFile file fresh s).activities = s.activities ∧
        (openFile file fresh s).active_activity = some e) ∨
    ((∀ a ∈ s.activities, isEditorFor file a = false) ∧
        (openFile file fresh s).activities =
          s.activities ++ [⟨fresh, .editor file⟩] ∧
        (openFile file fresh s).active_activity = some ⟨fresh, .editor file⟩) := by
  cases hfind : findEditorFor file s.activities with
  | some e =>
      left
      exact ⟨e, rfl, List.mem_of_find?_eq_some hfind, List.find?_some hfind,
        by simp [openFile, hfind], by simp [openFile, hfind]⟩
  | none =>
      right
      refine ⟨fun a ha => ?_, by simp [openFile, hfind], by simp [openFile, hfind]⟩
      have := List.find?_eq_none.mp hfind a ha
      simpa using this

/-- C3: closing a member `x` removes it (all handles identical to it) from the
collection, preserving the order of the rest; if `x` was active the panel
re-selects the first remaining element (or none when the collection becomes
empty), and otherwise the selection is untouched. -/
theorem closeActivity_member_spec (x : Activity) (s : PanelState)
    (hmem : x ∈ s.activities) :
    (closeActivity x s).activities = s.activities.filter (fun a => a ≠ x) ∧
    x ∉ (closeActivity x s).activities ∧
    (s.active_activity = some x →
      (closeActivity x s).active_activity =
        (s.activities.filter (fun a => a ≠ x)).head?) ∧
    (s.active_activity ≠ some x →
      (closeActivity x s).active_activity = s.active_activity) := by
  refine ⟨rfl, ?_, ?_, ?_⟩
  · intro hx
    have := (List.mem_filter.mp hx).2
    simp at this
  · intro hact
    simp [closeActivity, hact]
  · intro hact
    cases hb : s.active_activity with
    | none => simp [closeActivity, hb]
    | some b =>
        have hbx : b ≠ x := fun heq => hact (heq ▸ hb)
        simp [closeActivity, hb, hbx]

/-- Witness for C3: activities `[A, B, C]` with `B` active; closing `B` keeps
`[A, C]` and re-selects `A`. -/
theorem closeActivity_member_spec_witness :
    ((⟨1, .editor 1⟩ : Activity) ∈
      (PanelState.mk [⟨0, .welcome⟩, ⟨1, .editor 1⟩, ⟨2, .editor 2⟩]
        (some ⟨1, .editor 1⟩)).activities) ∧
    ((closeActivity ⟨1, .editor 1⟩
        (PanelState.mk [⟨0, .welcome⟩, ⟨1, .editor 1⟩, ⟨2, .editor 2⟩]
          (some ⟨1, .editor 1⟩))).activities =
      ([⟨0, .welcome⟩, ⟨1, .editor 1⟩, ⟨2, .editor 2⟩] : List Activity).filter
        (fun a => a ≠ ⟨1, .editor 1⟩) ∧
     (⟨1, .editor 1⟩ : Activity) ∉
      (closeActivity ⟨1, .editor 1⟩
        (PanelState.mk [⟨0, .welcome⟩, ⟨1, .editor 1⟩, ⟨2, .editor 2⟩]
          (some ⟨1, .editor 1⟩))).activities ∧
     ((PanelState.mk [⟨0, .welcome⟩, ⟨1, .editor 1⟩, ⟨2, .editor 2⟩]
          (some ⟨1, .editor 1⟩)).active_activity = some ⟨1, .editor 1⟩ →
      (closeActivity ⟨1, .editor 1⟩
        (PanelState.mk [⟨0, .welcome⟩, ⟨1, .editor 1⟩, ⟨2, .editor 2⟩]
          (some ⟨1, .editor 1⟩))).active_activity =
        (([⟨0, .welcome⟩, ⟨1, .editor 1⟩, ⟨2, .editor 2⟩] : List Activity).filter
          (fun a => a ≠ ⟨1, .editor 1⟩)).head?) ∧
     ((PanelState.mk [⟨0, .welcome⟩, ⟨1, .editor 1⟩, ⟨2, .editor 2⟩]
          (some ⟨1, .editor 1⟩)).active_activity ≠ some ⟨1, .editor 1⟩ →
      (closeActivity ⟨1, .editor 1⟩
        (PanelState.mk [⟨0, .welcome⟩, ⟨1, .editor 1⟩, ⟨2, .editor 2⟩]
          (some ⟨1, .editor 1⟩))).active_activity =
        (PanelState.mk [⟨0, .welcome⟩, ⟨1, .editor 1⟩, ⟨2, .editor 2⟩]
          (some ⟨1, .editor 1⟩)).active_activity)) :=
  ⟨by decide,
   closeActivity_member_spec ⟨1, .editor 1⟩
     (PanelState.mk [⟨0, .welcome⟩, ⟨1, .editor 1⟩, ⟨2, .editor 2⟩]
       (some ⟨1, .editor 1⟩)) (by decide)⟩

/-- C5 counterexample: the `PointerDown` select handler performs an
unconditional `active_activity.set(Some(this))`; invoked with a handle that is
not a member of the collection, it does set `active_activity` to that
non-member (refuting "never sets active_activity to a non-member"). -/
theorem select_nonmember_counterexample :
    (⟨1, .editor 5⟩ : Activity) ∉ initialPanel.activities ∧
    (selectActivity ⟨1, .editor 5⟩ initialPanel).active_activity =
      some ⟨1, .editor 5⟩ ∧
    (⟨1, .editor 5⟩ : Activity) ∉
      (selectActivity ⟨1, .editor 5⟩ initialPanel).activities := by
  decide

/-- C5 (amended): the select handler sets `active_activity` to the given
handle unconditionally — with no membership check and hence no rejection — but
it never adds the handle to the activities collection; in the rendered UI the
handler is only attached to tabs of current members. -/
theorem selectActivity_spec (x : Activity) (s : PanelState) :
    (selectActivity x s).active_activity = some x ∧
    (selectActivity x s).activities = s.activities :=
  ⟨rfl, rfl⟩

/-- C7: closing a handle that is no member of the collection leaves the pair
`(activities, active_activity)` unchanged, given the panel invariant that the
active activity (when present) is a member. -/
theorem close_nonmember_noop (x : Activity) (s : PanelState)
    (hx : x ∉ s.activities)
    (hinv : ∀ a, s.active_activity = some a → a ∈ s.activities) :
    closeActivity x s = s := by
  obtain ⟨acts, act⟩ := s
  have hfilter : acts.filter (fun a => a ≠ x) = acts :=
    List.filter_eq_self.mpr (fun a ha => by
      simp only [ne_eq, decide_eq_true_eq]
      exact fun heq => hx (heq ▸ ha))
  cases act with
  | none =>
      simp [closeActivity, hfilter]
      exact fun a ha heq => hx (heq ▸ ha)
  | some b =>
      have hbx : b ≠ x := fun heq => hx (heq ▸ hinv b rfl)
      simp [closeActivity, hfilter, hbx]
      exact fun a ha heq => hx (heq ▸ ha)

/-- Witness for C7: closing a never-opened editor handle on the initial panel
changes nothing. -/
theorem close_nonmember_noop_witness :
    (⟨9, .editor 9⟩ : Activity) ∉ initialPanel.activities ∧
    closeActivity ⟨9, .editor 9⟩ initialPanel = initialPanel :=
  ⟨by decide,
   close_nonmember_noop ⟨9, .editor 9⟩ initialPanel (by decide)
     (fun a ha => Option.some.inj ha ▸ (by decide :
       welcomeActivity ∈ initialPanel.activities))⟩

/-- C8: a secondary-click on a tab sets the context-menu visibility flag and
positions the menu at the pointer's screen coordinates, leaving the panel pair
untouched; clicking any menu option clears the visibility flag and also leaves
the panel pair untouched. -/
theorem context_menu_spec (x y : Int) (s : UIState) :
    (tabSecondaryClick x y s).menu.show_menu = true ∧
    (tabSecondaryClick x y s).menu.menu_position = (x, y) ∧
    (tabSecondaryClick x y s).panel = s.panel ∧
    (contextMenuOptionClick s).menu.show_menu = false ∧
    (contextMenuOptionClick s).panel = s.panel :=
  ⟨rfl, rfl, rfl, rfl, rfl⟩

/-- C10: the height handed to the active content is
`height.saturating_sub(TAB_HEIGHT)`: for every u32 panel height it is
`h - 48` when `h ≥ 48` and `0` when `h < 48`, with no underflow. -/
theorem content_height_spec (h : Nat) (hbound : h < 2 ^ 32) :
    (TAB_HEIGHT ≤ h → contentHeight h = h - 48) ∧
    (h < TAB_HEIGHT → contentHeight h = 0) := by
  constructor
  · intro hle
    have h48 : 48 ≤ h := hle
    simp [contentHeight, saturatingSub, TAB_HEIGHT, h48]
  · intro hlt
    have h48 : ¬ 48 ≤ h := Nat.not_le.mpr hlt
    simp [contentHeight, saturatingSub, TAB_HEIGHT, h48]

/-- Witness for C10 at heights 100 and 30. -/
theorem content_height_spec_witness :
    ((100 : Nat) < 2 ^ 32 ∧ (TAB_HEIGHT ≤ 100 → contentHeight 100 = 100 - 48)) ∧
    ((30 : Nat) < 2 ^ 32 ∧ (30 < TAB_HEIGHT → contentHeight 30 = 0)) :=
  ⟨⟨by decide, (content_height_spec 100 (by decide)).1⟩,
   ⟨by decide, (content_height_spec 30 (by decide)).2⟩⟩

theorem editorCount_eq_zero_of_find_none {file : Nat} {l : List Activity}
    (h : findEditorFor file l = none) : editorCount file l = 0 := by
  have hall := List.find?_eq_none.mp h
  simp only [editorCount, List.length_eq_zero]
  exact List.filter_eq_nil_iff.mpr hall

theorem editorCount_append (file : Nat) (l l' : List Activity) :
    editorCount file (l ++ l') = editorCount file l + editorCount file l' := by
  simp [editorCount, List.filter_append]

theorem editorCount_singleton_editor (file i f : Nat) :
    editorCount file [⟨i, .editor f⟩] = if f = file then 1 else 0 := by
  by_cases hf : f = file <;> simp [editorCount, isEditorFor, hf]

theorem editorCount_filter_le (file : Nat) (p : Activity → Bool)
    (l : List Activity) :
    editorCount file (l.filter p) ≤ editorCount file l :=
  List.Sublist.length_le (List.Sublist.filter _ (List.filter_sublist l))

/-- At most one editor activity per file is ever present in a reachable
panel: `OpenFile` de-duplicates, closing only removes. -/
theorem reachable_editorCount_le (file : Nat) {s : PanelState}
    (h : Reachable s) : editorCount file s.activities ≤ 1 := by
  induction h with
  | init =>
      simp [editorCount, initialPanel, welcomeActivity, isEditorFor]
  | @step u t _ hst ih =>
      cases hst with
      | openFile f fresh _ hfresh =>
          cases hfind : findEditorFor f u.activities with
          | some e => simpa [openFile, hfind] using ih
          | none =>
              simp only [openFile, hfind]
              rw [editorCount_append, editorCount_singleton_editor]
              by_cases hf : f = file
              · rw [if_pos hf]
                have h0 : editorCount file u.activities = 0 := by
                  subst hf
                  exact editorCount_eq_zero_of_find_none hfind
                omega
              · rw [if_neg hf]
                omega
      | select x _ hmem => simpa [selectActivity] using ih
      | close x _ =>
          simp only [closeActivity]
          exact le_trans (editorCount_filter_le file _ u.activities) ih

/-- C4: on a reachable panel, two successive `OpenFile(file)` commands leave
exactly one editor activity for `file` in the collection, that editor is
active after both calls, and the second call changes nothing at all. -/
theorem openFile_twice_dedup (file i1 i2 : Nat) (s : PanelState)
    (h : Reachable s) :
    openFile file i2 (openFile file i1 s) = openFile file i1 s ∧
    editorCount file (openFile file i2 (openFile file i1 s)).activities = 1 ∧
    ∃ e, isEditorFor file e = true ∧
      (openFile file i1 s).active_activity = some e ∧
      (openFile file i2 (openFile file i1 s)).active_activity = some e := by
  have hle := reachable_editorCount_le file h
  cases hfind : findEditorFor file s.activities with
  | some e =>
      have hmem := List.mem_of_find?_eq_some hfind
      have hped : isEditorFor file e = true := List.find?_some hfind
      have hs1 : openFile file i1 s = { s with active_activity := some e } := by
        simp [openFile, hfind]
      have hs2 : openFile file i2 ({ s with active_activity := some e }) =
          { s with active_activity := some e } := by
        simp [openFile, hfind]
      rw [hs1, hs2]
      refine ⟨rfl, ?_, e, hped, rfl, rfl⟩
      show editorCount file s.activities = 1
      have h1 : 0 < editorCount file s.activities := by
        have hmemf : e ∈ s.activities.filter (isEditorFor file) :=
          List.mem_filter.mpr ⟨hmem, hped⟩
        exact List.length_pos.mpr (List.ne_nil_of_mem hmemf)
      omega
  | none =>
      have h0 := editorCount_eq_zero_of_find_none hfind
      have hfind1 : findEditorFor file
          (s.activities ++ [⟨i1, .editor file⟩]) = some ⟨i1, .editor file⟩ := by
        simp only [findEditorFor] at hfind ⊢
        rw [List.find?_append, hfind]
        simp [isEditorFor]
      have hs1 : openFile file i1 s =
          { activities := s.activities ++ [⟨i1, .editor file⟩],
            active_activity := some ⟨i1, .editor file⟩ } := by
        simp [openFile, hfind]
      have hs2 : openFile file i2
          ({ activities := s.activities ++ [⟨i1, .editor file⟩],
             active_activity := some ⟨i1, .editor file⟩ } : PanelState) =
          { activities := s.activities ++ [⟨i1, .editor file⟩],
            active_activity := some ⟨i1, .editor file⟩ } := by
        simp [openFile, hfind1]
      rw [hs1, hs2]
      refine ⟨rfl, ?_, ⟨i1, .editor file⟩, by simp [isEditorFor], rfl, rfl⟩
      show editorCount file (s.activities ++ [⟨i1, .editor file⟩]) = 1
      rw [editorCount_append, editorCount_singleton_editor, if_pos rfl]
      omega

/-- Witness for C4: opening file 5 twice on the initial panel. -/
theorem openFile_twice_dedup_witness :
    Reachable initialPanel ∧
    (openFile 5 2 (openFile 5 1 initialPanel) = openFile 5 1 initialPanel ∧
     editorCount 5 (openFile 5 2 (openFile 5 1 initialPanel)).activities = 1 ∧
     ∃ e, isEditorFor 5 e = true ∧
       (openFile 5 1 initialPanel).active_activity = some e ∧
       (openFile 5 2 (openFile 5 1 initialPanel)).active_activity = some e) :=
  ⟨Reachable.init, openFile_twice_dedup 5 1 2 initialPanel Reachable.init⟩

/-- C6: opening pairwise-distinct files that have no editor yet appends their
editors at the end of the collection in command order; every pre-existing
activity (the welcome activity included) stays in place, before all of them. -/
theorem openFiles_append_order (ps : List (Nat × Nat)) (s : PanelState)
    (hnew : ∀ p ∈ ps, findEditorFor p.1 s.activities = none)
    (hnodup : (ps.map Prod.fst).Nodup) :
    (openFiles ps s).activities =
      s.activities ++ ps.map (fun p => (⟨p.2, .editor p.1⟩ : Activity)) := by
  induction ps generalizing s with
  | nil => simp [openFiles]
  | cons p ps ih =>
      have hfind := hnew p (List.mem_cons_self p ps)
      have hs1 : openFile p.1 p.2 s =
          { activities := s.activities ++ [⟨p.2, .editor p.1⟩],
            active_activity := some ⟨p.2, .editor p.1⟩ } := by
        simp [openFile, hfind]
      have hhead : p.1 ∉ ps.map Prod.fst := (List.nodup_cons.mp hnodup).1
      have hnew' : ∀ q ∈ ps,
          findEditorFor q.1 (openFile p.1 p.2 s).activities = none := by
        intro q hq
        rw [hs1]
        have hq1 : findEditorFor q.1 s.activities = none :=
          hnew q (List.mem_cons_of_mem p hq)
        have hne : p.1 ≠ q.1 :=
          fun heq => hhead (heq ▸ List.mem_map_of_mem Prod.fst hq)
        simp only [findEditorFor] at hq1 ⊢
        rw [List.find?_append, hq1]
        simp [isEditorFor, hne]
      have hrest := ih (openFile p.1 p.2 s) hnew' (List.nodup_cons.mp hnodup).2
      have hfold : openFiles (p :: ps) s = openFiles ps (openFile p.1 p.2 s) := rfl
      rw [hfold, hrest, hs1]
      simp

/-- Witness for C6: opening files 5 and 6 on the initial panel appends their
editors after the welcome activity, in order. -/
theorem openFiles_append_order_witness :
    (∀ p ∈ ([(5, 1), (6, 2)] : List (Nat × Nat)),
      findEditorFor p.1 initialPanel.activities = none) ∧
    ((([(5, 1), (6, 2)] : List (Nat × Nat)).map Prod.fst).Nodup) ∧
    (openFiles ([(5, 1), (6, 2)] : List (Nat × Nat)) initialPanel).activities =
      initialPanel.activities ++
        ([(5, 1), (6, 2)] : List (Nat × Nat)).map
          (fun p => (⟨p.2, .editor p.1⟩ : Activity)) :=
  ⟨by decide, by decide,
   openFiles_append_order ([(5, 1), (6, 2)] : List (Nat × Nat)) initialPanel
     (by decide) (by decide)⟩

/-- C9: through the operations the rendered UI exposes (open-file commands,
tab clicks, and the close affordance that exists only on editor tabs), the
welcome activity seeded at construction stays in the collection, so the
collection is never empty and there is always an active activity. -/
theorem ui_reachable_welcome (s : PanelState) (h : UIReachable s) :
    welcomeActivity ∈ s.activities ∧ s.activities ≠ [] ∧
    s.active_activity ≠ none := by
  induction h with
  | init => exact ⟨by decide, by decide, by decide⟩
  | @step u t _ hst ih =>
      obtain ⟨ihw, ihne, ihact⟩ := ih
      cases hst with
      | openFile f fresh hfresh =>
          cases hfind : findEditorFor f u.activities with
          | some e =>
              refine ⟨?_, ?_, ?_⟩ <;> simp only [openFile, hfind]
              · exact ihw
              · exact ihne
              · exact Option.noConfusion
          | none =>
              refine ⟨?_, ?_, ?_⟩ <;> simp only [openFile, hfind]
              · exact List.mem_append_left _ ihw
              · simp
              · exact Option.noConfusion
      | select x hmem =>
          exact ⟨ihw, ihne, Option.noConfusion⟩
      | close x _ hmem hed =>
          obtain ⟨f, hf⟩ := hed
          have hwx : welcomeActivity ≠ x := by
            intro heq
            rw [← heq] at hf
            exact ActivityKind.noConfusion hf
          have hwmem : welcomeActivity ∈
              u.activities.filter (fun a => a ≠ x) :=
            List.mem_filter.mpr ⟨ihw, by simpa using hwx⟩
          refine ⟨hwmem, List.ne_nil_of_mem hwmem, ?_⟩
          cases hact : u.active_activity with
          | none => exact absurd hact ihact
          | some b =>
              simp only [closeActivity, hact]
              by_cases hbx : b = x
              · rw [if_pos hbx]
                intro hnone
                exact List.ne_nil_of_mem hwmem (List.head?_eq_none_iff.mp hnone)
              · rw [if_neg hbx]
                exact Option.noConfusion

/-- Witness for C9 at the initial state. -/
theorem ui_reachable_welcome_witness :
    UIReachable initialPanel ∧
    (welcomeActivity ∈ initialPanel.activities ∧
     initialPanel.activities ≠ [] ∧
     initialPanel.active_activity ≠ none) :=
  ⟨UIReachable.init, ui_reachable_welcome initialPanel UIReachable.init⟩

end ActivityPanel
